import Mathlib

/-!
# Verification of the X728 UPS watchdog daemon (`src/main.rs`)

Shallow embedding of the daemon core: the cancellation token, the buzzer
pulse-train routine `beep`, the power-source monitor `get_power_loss_action`,
the button monitor `get_button_action`, the shell-command dispatcher
`run_shell_command`, the fuel-gauge register decoders
(`get_voltage` / `get_current` / `get_capacity`), and the sequential control
flow of `main`.

Modelling conventions:
* Durations and timestamps are natural numbers of milliseconds
  (`tokio::time::Duration` has sub-millisecond precision, but every constant
  in the program is a whole number of milliseconds).
* Hardware reads (GPIO pin levels, I2C capacity readings) and the values
  observed at each `is_cancelled()` check are supplied as input traces: one
  record per loop iteration, fields in the order the Rust code reads them.
  An exhausted finite trace stands for a run that is still inside the loop,
  so the run result carries `none` for the action in that case.
* Monitor runs are instrumented: besides the returned `Option` action they
  record the buzzer calls made and the list of cancellation-flag values
  observed by the monitor at its own `is_cancelled()` checks, in program order.
* `Percentage` values (the `decimal_percentage` crate stores exact decimals,
  and the f64 ratio `raw / 25600.0` round-trips through the decimal
  conversion) are embedded as exact rationals `ℚ`; `Percentage::from(0.2f32)`
  is the exact decimal `0.2 = 1/5`.
-/

/-- `enum PowerSource` from `src/main.rs`. -/
inductive PowerSource
  | PowerSupply
  | Battery
deriving DecidableEq

/-- `enum ButtonState` from `src/main.rs`. -/
inductive ButtonState
  | Pressed
  | Released
deriving DecidableEq

/-- `enum ButtonAction` from `src/main.rs`; the payload is the measured
press duration in milliseconds. -/
inductive ButtonAction
  | Reboot (elapsedMs : Nat)
  | Shutdown (elapsedMs : Nat)
deriving DecidableEq

/-- `enum PowerLossAction` from `src/main.rs`; `CapacityLow` carries the
capacity reading as an exact ratio (1 = 100 %), `Timeout` the elapsed
time on battery in milliseconds. -/
inductive PowerLossAction
  | CapacityLow (capacity : ℚ)
  | Timeout (elapsedMs : Nat)
deriving DecidableEq

/-! ## Cancellation token

`tokio_util::sync::CancellationToken` restricted to the operations the
program uses: `cancel` and `is_cancelled`.  The observable state is the
boolean flag. -/

/-- State of a `CancellationToken`: just its flag. -/
structure CancellationToken where
  flag : Bool
deriving DecidableEq

/-- `CancellationToken::cancel`: sets the flag. -/
def CancellationToken.cancel (_t : CancellationToken) : CancellationToken :=
  ⟨true⟩

/-- `CancellationToken::is_cancelled`: reads the flag. -/
def CancellationToken.is_cancelled (t : CancellationToken) : Bool :=
  t.flag

/-! ## Buzzer: `X728USV::beep`

`beep(high_duration, low_duration, count, token)` iterates `counter` over
`0..count`; at each loop entry it returns if the token is cancelled,
otherwise sets the buzzer high, races cancellation against
`sleep(high_duration)`, sets it low, and if `counter + 1 < count` races
cancellation against `sleep(low_duration)`.  The `select!` arms are both
empty, so the races only spend time; control flow depends solely on the
`is_cancelled()` checks at loop entries, supplied here as `cancelAt i` for
the check at pulse `i`. -/

/-- One observable event of a `beep` call on the buzzer output. -/
inductive BeepEvent
  | setHigh
  | sleepHigh
  | setLow
  | sleepLow
deriving DecidableEq

/-- The loop of `beep`, with `fuel = count - counter` remaining iterations;
returns the events emitted from iteration `counter` on. -/
def beepGo (count : Nat) (cancelAt : Nat → Bool) : Nat → Nat → List BeepEvent
  | _counter, 0 => []
  | counter, fuel + 1 =>
    if cancelAt counter then
      []
    else
      BeepEvent.setHigh :: BeepEvent.sleepHigh :: BeepEvent.setLow ::
        (if counter + 1 < count then
          BeepEvent.sleepLow :: beepGo count cancelAt (counter + 1) fuel
        else
          beepGo count cancelAt (counter + 1) fuel)

/-- `X728USV::beep`: the full event trace of one call, given the
cancellation value observed at the loop entry of each pulse. -/
def beep (count : Nat) (cancelAt : Nat → Bool) : List BeepEvent :=
  beepGo count cancelAt 0 count

/-- The uninterrupted pulse train of `n` pulses: each pulse is
high/sleep/low, with an inter-pulse low sleep only when more pulses
remain. -/
def pulseTrain : Nat → List BeepEvent
  | 0 => []
  | 1 => [BeepEvent.setHigh, BeepEvent.sleepHigh, BeepEvent.setLow]
  | n + 2 =>
    BeepEvent.setHigh :: BeepEvent.sleepHigh :: BeepEvent.setLow ::
      BeepEvent.sleepLow :: pulseTrain (n + 1)

/-- The event trace of `i` completed pulses each followed by the
inter-pulse sleep: what a `beep` emits before cancellation stops it at the
entry of pulse `i`. -/
def interruptedTrain : Nat → List BeepEvent
  | 0 => []
  | n + 1 =>
    BeepEvent.setHigh :: BeepEvent.sleepHigh :: BeepEvent.setLow ::
      BeepEvent.sleepLow :: interruptedTrain n

/-- Buzzer level (`true` = high) after replaying an event list from level
`lvl`. -/
def levelAfter (lvl : Bool) : List BeepEvent → Bool
  | [] => lvl
  | BeepEvent.setHigh :: r => levelAfter true r
  | BeepEvent.setLow :: r => levelAfter false r
  | BeepEvent.sleepHigh :: r => levelAfter lvl r
  | BeepEvent.sleepLow :: r => levelAfter lvl r

/-- A call to `beep` as recorded by a monitor run: the two durations in
milliseconds and the pulse count. -/
structure BeepCall where
  highMs : Nat
  lowMs : Nat
  count : Nat
deriving DecidableEq

/-! ## Power-source monitor: `X728USV::get_power_loss_action`

The Rust loop, per iteration: check `is_cancelled()` at the `while` head
(exit with `None` if set); read the power source; on a change update
`last_source` and `state_changed = Instant::now()` and play a feedback
beep (2×50/100 ms on restore, 3×500/500 ms on loss); then evaluate
`!is_cancelled() && new_source == Battery` (the left operand is always
read); if it holds, compute `elapsed = state_changed.elapsed()`, return
`Timeout(elapsed)` when `elapsed > shutdown_duration`, otherwise read the
capacity and return `CapacityLow(c)` when the read succeeds with
`c < 0.2`; a failed read is only logged; finally race cancellation against
`sleep(10 s)` and loop. -/

/-- Inputs consumed by one iteration of the power-monitor loop, in read
order: the `is_cancelled()` value at the loop head, the power-source
sample, the `Instant::now()` value taken when the source changed, the
`is_cancelled()` value at the battery test, the `Instant::now()` value
used by `state_changed.elapsed()`, and the capacity read result
(`none` = I2C error). -/
structure PowerTick where
  cancelHead : Bool
  source : PowerSource
  nowChange : Nat
  cancelMid : Bool
  nowElapsed : Nat
  capacity : Option ℚ
deriving DecidableEq

/-- Initial reads of `get_power_loss_action`, before the loop:
`last_source = get_power_source()` and `state_changed = Instant::now()`. -/
structure PowerInit where
  initSource : PowerSource
  initTime : Nat
deriving DecidableEq

/-- Instrumented result of a power-monitor run: buzzer calls made, the
values observed by the monitor at its own `is_cancelled()` checks in program
order, and the returned action. -/
structure PowerRunResult where
  beeps : List BeepCall
  obs : List Bool
  action : Option PowerLossAction
deriving DecidableEq

/-- `Percentage::from(0.2f32)`, the low-capacity threshold: the exact
decimal 0.2. -/
def lowCapacityThreshold : ℚ := 1 / 5

/-- Feedback beep played on a transition to `source` (2×50/100 ms when
power is restored, 3×500/500 ms when it fails). -/
def transitionBeep : PowerSource → BeepCall
  | PowerSource.PowerSupply => ⟨50, 100, 2⟩
  | PowerSource.Battery => ⟨500, 500, 3⟩

/-- The `state_changed` value after the change test of one iteration:
reset to the `Instant::now()` value of the tick when the source sample differs from
`last_source`. -/
def powerChanged2 (last : PowerSource) (changed : Nat) (t : PowerTick) : Nat :=
  if t.source = last then changed else t.nowChange

/-- The feedback beeps played during one iteration: the transition beep
when the source sample differs from `last_source`, nothing otherwise. -/
def powerBeeps1 (last : PowerSource) (t : PowerTick) : List BeepCall :=
  if t.source = last then [] else [transitionBeep t.source]

/-- The `while !is_cancelled()` loop of `get_power_loss_action`, from the
state `last_source = last`, `state_changed = changed`. -/
def powerLoop (timeoutMs : Nat) (last : PowerSource) (changed : Nat) :
    List PowerTick → PowerRunResult
  | [] => ⟨[], [], none⟩
  | t :: rest =>
    if t.cancelHead then
      ⟨[], [true], none⟩
    else
      if t.cancelMid = false ∧ t.source = PowerSource.Battery then
        if timeoutMs < t.nowElapsed - powerChanged2 last changed t then
          ⟨powerBeeps1 last t, [false, false],
            some (PowerLossAction.Timeout
              (t.nowElapsed - powerChanged2 last changed t))⟩
        else
          match t.capacity with
          | some c =>
            if c < lowCapacityThreshold then
              ⟨powerBeeps1 last t, [false, false],
                some (PowerLossAction.CapacityLow c)⟩
            else
              let r := powerLoop timeoutMs t.source (powerChanged2 last changed t) rest
              ⟨powerBeeps1 last t ++ r.beeps, false :: false :: r.obs, r.action⟩
          | none =>
            let r := powerLoop timeoutMs t.source (powerChanged2 last changed t) rest
            ⟨powerBeeps1 last t ++ r.beeps, false :: false :: r.obs, r.action⟩
      else
        let r := powerLoop timeoutMs t.source (powerChanged2 last changed t) rest
        ⟨powerBeeps1 last t ++ r.beeps, false :: t.cancelMid :: r.obs, r.action⟩

/-- `X728USV::get_power_loss_action`: initial reads, then the loop. -/
def get_power_loss_action (timeoutMs : Nat) (init : PowerInit)
    (trace : List PowerTick) : PowerRunResult :=
  powerLoop timeoutMs init.initSource init.initTime trace

/-! ## Button monitor: `X728USV::get_button_action`

The Rust loop, per iteration: check `is_cancelled()` at the `while` head
(exit with `None`); read the button.  `Released`: race cancellation
against a 50 ms sleep and loop.  `Pressed`: play one 200/200 ms beep,
take `pulse_start = Instant::now()`, run the inner
`while !is_cancelled() && pressed` loop (each check reads the token first
and the pin only if the token is clear), then if `!is_cancelled()`
compute `elapsed = pulse_start.elapsed()` and return `Reboot(elapsed)`
when `elapsed ≥ 2 s`, else `Shutdown(elapsed)`; if cancelled, fall back
to the outer loop head. -/

/-- Inputs consumed by one outer iteration of the button-monitor loop:
the `is_cancelled()` value at the outer head, the button sample, the
`Instant::now()` value taken as `pulse_start` (used only when `Pressed`),
the `(is_cancelled, button)` pairs read at the inner loop checks, the
`is_cancelled()` value read after the inner loop, and the
`Instant::now()` value used by `pulse_start.elapsed()`. -/
structure ButtonTick where
  cancelHead : Bool
  state : ButtonState
  pressStart : Nat
  innerChecks : List (Bool × ButtonState)
  cancelAfterInner : Bool
  releaseTime : Nat
deriving DecidableEq

/-- Instrumented result of a button-monitor run. -/
structure ButtonRunResult where
  beeps : List BeepCall
  obs : List Bool
  action : Option ButtonAction
deriving DecidableEq

/-- The inner `while !is_cancelled() && pressed` loop: returns the
cancellation values it observed and `some ()` when it exits within the
trace (`none` = the finite trace ended inside the loop). -/
def buttonInner : List (Bool × ButtonState) → List Bool × Option Unit
  | [] => ([], none)
  | (c, s) :: rest =>
    if c then
      ([true], some ())
    else if s = ButtonState.Pressed then
      let r := buttonInner rest
      (false :: r.1, r.2)
    else
      ([false], some ())

/-- `X728USV::get_button_action`: the outer `while !is_cancelled()`
loop. -/
def get_button_action : List ButtonTick → ButtonRunResult
  | [] => ⟨[], [], none⟩
  | t :: rest =>
    if t.cancelHead then
      ⟨[], [true], none⟩
    else
      match t.state with
      | ButtonState.Released =>
        let r := get_button_action rest
        ⟨r.beeps, false :: r.obs, r.action⟩
      | ButtonState.Pressed =>
        let inner := buttonInner t.innerChecks
        match inner.2 with
        | none => ⟨[⟨200, 200, 1⟩], false :: inner.1, none⟩
        | some _ =>
          if t.cancelAfterInner then
            let r := get_button_action rest
            ⟨⟨200, 200, 1⟩ :: r.beeps, (false :: inner.1) ++ true :: r.obs,
              r.action⟩
          else
            let elapsed := t.releaseTime - t.pressStart
            if 2000 ≤ elapsed then
              ⟨[⟨200, 200, 1⟩], (false :: inner.1) ++ [false],
                some (ButtonAction.Reboot elapsed)⟩
            else
              ⟨[⟨200, 200, 1⟩], (false :: inner.1) ++ [false],
                some (ButtonAction.Shutdown elapsed)⟩

/-! ## Shell commands: `run_shell_command`

`run_shell_command(command)` splits the string on whitespace
(`str::split_whitespace`: maximal runs of non-whitespace, no empty
tokens); a missing first token yields `CommandError::NoCommand` before
anything is spawned; otherwise the first token is spawned with the rest
as arguments (`spawn()?` propagates an IO error), the process is awaited,
and a present exit code `≠ 0` yields `CommandError::CommandFailed`; exit
code `0` (or a signal-terminated process, which has no code) yields
`Ok(())`.  Strings are embedded as `List Char`. -/

/-- Whitespace as recognised by `str::split_whitespace`, i.e. the
Unicode `White_Space` property checked by `char::is_whitespace`:
tab through carriage return (U+0009 to U+000D), space, next line
(U+0085), no-break space (U+00A0), ogham space mark (U+1680), the
U+2000 to U+200A spaces, line and paragraph separators (U+2028,
U+2029), narrow no-break space (U+202F), medium mathematical space
(U+205F) and ideographic space (U+3000). -/
def isWS (c : Char) : Bool :=
  (0x09 ≤ c.toNat && c.toNat ≤ 0x0D) || c.toNat = 0x20 ||
    c.toNat = 0x85 || c.toNat = 0xA0 || c.toNat = 0x1680 ||
    (0x2000 ≤ c.toNat && c.toNat ≤ 0x200A) || c.toNat = 0x2028 ||
    c.toNat = 0x2029 || c.toNat = 0x202F || c.toNat = 0x205F ||
    c.toNat = 0x3000

/-- Accumulator worker for `split_whitespace`: `acc` holds the reversed
current token. -/
def wordsAux (acc : List Char) : List Char → List (List Char)
  | [] => if acc.isEmpty then [] else [acc.reverse]
  | c :: rest =>
    if isWS c then
      if acc.isEmpty then wordsAux [] rest else acc.reverse :: wordsAux [] rest
    else
      wordsAux (c :: acc) rest

/-- `str::split_whitespace`, collected to a list of tokens. -/
def split_whitespace (s : List Char) : List (List Char) :=
  wordsAux [] s

/-- Outcome of `Command::spawn()` + `process.wait()`: a spawn failure, or
an exit status whose code is `none` when the process was terminated by a
signal. -/
inductive SpawnOutcome
  | spawnFailed
  | exited (code : Option Int)
deriving DecidableEq

/-- The error cases `run_shell_command` can return: the two
`CommandError` variants of the source plus the propagated IO error from
`spawn()?`. -/
inductive CommandError
  | NoCommand
  | CommandFailed (code : Int)
  | SpawnError
deriving DecidableEq

/-- `run_shell_command`, with the process behaviour supplied as
`outcome`. -/
def run_shell_command (command : List Char) (outcome : SpawnOutcome) :
    Except CommandError Unit :=
  match split_whitespace command with
  | [] => Except.error CommandError.NoCommand
  | _prog :: _args =>
    match outcome with
    | SpawnOutcome.spawnFailed => Except.error CommandError.SpawnError
    | SpawnOutcome.exited none => Except.ok ()
    | SpawnOutcome.exited (some code) =>
      if code ≠ 0 then Except.error (CommandError.CommandFailed code)
      else Except.ok ()

/-! ## Fuel-gauge register decoders

`smbus_read_word` returns the 16-bit word with the first byte on the wire
in its low half; the device sends big-endian, so the code applies
`u16::from_be` (a byte swap on the little-endian host) before scaling.
All arithmetic here is exact in `f64` or recovered exactly by the decimal
conversion, so the embedding uses `ℚ` / `Int`. -/

/-- `u16::from_be` on the little-endian target: swap the two bytes of a
16-bit word. -/
def u16_from_be (x : Nat) : Nat :=
  x % 256 * 256 + x / 256 % 256

/-- Reinterpret a 16-bit word as a signed two-complement value
(`as i16`). -/
def i16_of_u16 (x : Nat) : Int :=
  if x % 65536 < 32768 then (x % 65536 : Int) else (x % 65536 : Int) - 65536

/-- `X728USV::get_voltage` on the bus word `busWord`: decode big-endian,
then `raw * 1.25 / 16` millivolts. -/
def get_voltage (busWord : Nat) : ℚ :=
  (u16_from_be busWord : ℚ) * (5 / 4) / 16

/-- `X728USV::get_current` on the bus word `busWord`:
`i16::from_be(raw as i16)` milliamps. -/
def get_current (busWord : Nat) : Int :=
  i16_of_u16 (u16_from_be busWord)

/-- `X728USV::get_capacity` on the bus word `busWord`: decode big-endian,
then `raw / 25600` as a 0–1 ratio. -/
def get_capacity (busWord : Nat) : ℚ :=
  (u16_from_be busWord : ℚ) / 25600

/-! ## `main`: sequential control flow

`main` builds the two routine futures and then runs
`power_loss_routine.await?` followed by `button_routine.await?`: the
power-loss routine (which itself awaits `get_power_loss_action` and, on a
resolved action, cancels the token and runs the shutdown command) is
polled to completion before the button routine is first polled.  Neither
future is spawned as a task and `main` uses no `join!`/`select!`, so the
two monitors never run concurrently. -/

/-- Milestones of the execution of `main`, in order: a full run of
`get_power_loss_action` (with its returned action), an invocation of
`run_shell_command`, a full run of `get_button_action`. -/
inductive MainEvent
  | powerMonitorRun (result : Option PowerLossAction)
  | execCommand (command : List Char)
  | buttonMonitorRun (result : Option ButtonAction)
deriving DecidableEq

/-- The ordered milestone trace of `main`, given the returned
action of each monitor and the two configured command strings (command failures, which
only cut the trace short, are ignored here). -/
def main_events (powerResult : Option PowerLossAction)
    (buttonResult : Option ButtonAction)
    (shutdownCmd rebootCmd : List Char) : List MainEvent :=
  (MainEvent.powerMonitorRun powerResult ::
    match powerResult with
    | some _ => [MainEvent.execCommand shutdownCmd]
    | none => []) ++
  (MainEvent.buttonMonitorRun buttonResult ::
    match buttonResult with
    | some (ButtonAction.Reboot _) => [MainEvent.execCommand rebootCmd]
    | some (ButtonAction.Shutdown _) => [MainEvent.execCommand shutdownCmd]
    | none => [])

/-- An action produced during one process lifetime, from either monitor. -/
inductive ProcessAction
  | power (a : PowerLossAction)
  | button (a : ButtonAction)
deriving DecidableEq

/-- All actions produced during one process lifetime: `main` runs the
power monitor, then (after cancelling on a resolved action) the button
monitor. -/
def process_actions (timeoutMs : Nat) (init : PowerInit)
    (ptrace : List PowerTick) (btrace : List ButtonTick) :
    List ProcessAction :=
  (match (get_power_loss_action timeoutMs init ptrace).action with
   | some a => [ProcessAction.power a]
   | none => []) ++
  (match (get_button_action btrace).action with
   | some b => [ProcessAction.button b]
   | none => [])

/-! ## Monotone observation sequences

A real `CancellationToken` never resets, so the successive values a run
observes at its `is_cancelled()` checks form a monotone boolean sequence:
never `true` followed by `false`. -/

/-- `monoObs obsList` holds when no `true` is followed by a `false` in
`obsList`. -/
def monoObs : List Bool → Bool
  | [] => true
  | [_] => true
  | a :: b :: r => (!a || b) && monoObs (b :: r)

/-! ## Helper lemmas -/

theorem monoObs_tail {a : Bool} {l : List Bool} (h : monoObs (a :: l) = true) :
    monoObs l = true := by
  cases l with
  | nil => rfl
  | cons b r =>
    simp only [monoObs, Bool.and_eq_true] at h
    exact h.2

theorem monoObs_from_true {l : List Bool} (h : monoObs (true :: l) = true) :
    ∀ b ∈ l, b = true := by
  induction l with
  | nil => intro b hb; cases hb
  | cons x r ih =>
    intro b hb
    simp only [monoObs, Bool.not_true, Bool.false_or, Bool.and_eq_true] at h
    rcases List.mem_cons.mp hb with hb | hb
    · rw [hb]; exact h.1
    · exact ih (h.1 ▸ h.2) b hb

theorem monoObs_drop {l₂ : List Bool} :
    ∀ l₁ : List Bool, monoObs (l₁ ++ l₂) = true → monoObs l₂ = true := by
  intro l₁
  induction l₁ with
  | nil => intro h; exact h
  | cons a r ih => intro h; exact ih (monoObs_tail h)

theorem monoObs_before_false {l : List Bool}
    (h : monoObs (l ++ [false]) = true) : ∀ b ∈ l, b = false := by
  induction l with
  | nil => intro b hb; cases hb
  | cons a r ih =>
    intro b hb
    rcases List.mem_cons.mp hb with hb | hb
    · subst hb
      cases ha : b with
      | false => rfl
      | true =>
        exfalso
        rw [ha] at h
        have := monoObs_from_true h false (by simp)
        cases this
    · exact ih (monoObs_tail h) b hb

theorem u16_from_be_lt (x : Nat) : u16_from_be x < 65536 := by
  unfold u16_from_be
  omega

theorem u16_from_be_involutive {x : Nat} (h : x < 65536) :
    u16_from_be (u16_from_be x) = x := by
  have h1 : x / 256 < 256 := by omega
  unfold u16_from_be
  rw [Nat.mod_eq_of_lt h1]
  have hm : (x % 256 * 256 + x / 256) % 256 = x / 256 := by
    omega
  have hd : (x % 256 * 256 + x / 256) / 256 = x % 256 := by
    omega
  rw [hm, hd]
  omega

theorem wordsAux_eq_nil_iff (s : List Char) :
    ∀ acc : List Char,
      (wordsAux acc s = [] ↔ acc.isEmpty = true ∧ s.all isWS = true) := by
  induction s with
  | nil =>
    intro acc
    cases acc <;> simp [wordsAux]
  | cons c rest ih =>
    intro acc
    by_cases hws : isWS c = true
    · cases acc with
      | nil => simp [wordsAux, hws, ih]
      | cons a r => simp [wordsAux, hws, List.isEmpty]
    · simp only [Bool.not_eq_true] at hws
      simp [wordsAux, hws, ih]

theorem split_whitespace_eq_nil_iff (s : List Char) :
    split_whitespace s = [] ↔ s.all isWS = true := by
  simpa [List.isEmpty] using wordsAux_eq_nil_iff s []

theorem powerLoop_allTrue_none (tm : Nat) (last : PowerSource) (ch : Nat)
    (tr : List PowerTick)
    (h : ∀ b ∈ (powerLoop tm last ch tr).obs, b = true) :
    (powerLoop tm last ch tr).action = none := by
  cases tr with
  | nil => rfl
  | cons t rest =>
    cases hc : t.cancelHead with
    | true => simp [powerLoop, hc]
    | false =>
      exfalso
      have hf : (false : Bool) ∈ (powerLoop tm last ch (t :: rest)).obs := by
        simp only [powerLoop, hc]
        repeat' split
        all_goals simp_all
      exact Bool.noConfusion (h false hf)

theorem powerLoop_cancelled (tm : Nat) (last : PowerSource) (ch : Nat)
    (t : PowerTick) (rest : List PowerTick) (hc : t.cancelHead = true) :
    powerLoop tm last ch (t :: rest) = ⟨[], [true], none⟩ := by
  simp [powerLoop, hc]

theorem powerLoop_skip (tm : Nat) (last : PowerSource) (ch : Nat)
    (t : PowerTick) (rest : List PowerTick) (hc : t.cancelHead = false)
    (hmid : ¬(t.cancelMid = false ∧ t.source = PowerSource.Battery)) :
    powerLoop tm last ch (t :: rest) =
      ⟨powerBeeps1 last t ++
          (powerLoop tm t.source (powerChanged2 last ch t) rest).beeps,
        false :: t.cancelMid ::
          (powerLoop tm t.source (powerChanged2 last ch t) rest).obs,
        (powerLoop tm t.source (powerChanged2 last ch t) rest).action⟩ := by
  simp only [powerLoop, hc, Bool.false_eq_true, if_false]
  rw [if_neg hmid]

theorem powerLoop_timeout (tm : Nat) (last : PowerSource) (ch : Nat)
    (t : PowerTick) (rest : List PowerTick) (hc : t.cancelHead = false)
    (hmid : t.cancelMid = false) (hsrc : t.source = PowerSource.Battery)
    (ht : tm < t.nowElapsed - powerChanged2 last ch t) :
    powerLoop tm last ch (t :: rest) =
      ⟨powerBeeps1 last t, [false, false],
        some (PowerLossAction.Timeout
          (t.nowElapsed - powerChanged2 last ch t))⟩ := by
  simp only [powerLoop, hc, Bool.false_eq_true, if_false]
  rw [if_pos ⟨hmid, hsrc⟩, if_pos ht]

theorem powerLoop_caplow (tm : Nat) (last : PowerSource) (ch : Nat)
    (t : PowerTick) (rest : List PowerTick) (c : ℚ) (hc : t.cancelHead = false)
    (hmid : t.cancelMid = false) (hsrc : t.source = PowerSource.Battery)
    (ht : ¬ tm < t.nowElapsed - powerChanged2 last ch t)
    (hcap : t.capacity = some c) (hlow : c < lowCapacityThreshold) :
    powerLoop tm last ch (t :: rest) =
      ⟨powerBeeps1 last t, [false, false],
        some (PowerLossAction.CapacityLow c)⟩ := by
  simp only [powerLoop, hc, Bool.false_eq_true, if_false]
  rw [if_pos ⟨hmid, hsrc⟩, if_neg ht, hcap]
  simp only [hlow, if_true]

theorem powerLoop_capok (tm : Nat) (last : PowerSource) (ch : Nat)
    (t : PowerTick) (rest : List PowerTick) (hc : t.cancelHead = false)
    (hmid : t.cancelMid = false) (hsrc : t.source = PowerSource.Battery)
    (ht : ¬ tm < t.nowElapsed - powerChanged2 last ch t)
    (hcap : t.capacity = none ∨
      ∃ c, t.capacity = some c ∧ ¬ c < lowCapacityThreshold) :
    powerLoop tm last ch (t :: rest) =
      ⟨powerBeeps1 last t ++
          (powerLoop tm t.source (powerChanged2 last ch t) rest).beeps,
        false :: false ::
          (powerLoop tm t.source (powerChanged2 last ch t) rest).obs,
        (powerLoop tm t.source (powerChanged2 last ch t) rest).action⟩ := by
  simp only [powerLoop, hc, Bool.false_eq_true, if_false]
  rw [if_pos ⟨hmid, hsrc⟩, if_neg ht]
  rcases hcap with hcap | ⟨c, hcap, hlow⟩
  · rw [hcap]
  · rw [hcap]
    simp only [hlow, if_false]

theorem powerLoop_mono_some_obs_false (tm : Nat) :
    ∀ (tr : List PowerTick) (last : PowerSource) (ch : Nat)
      (a : PowerLossAction),
      monoObs (powerLoop tm last ch tr).obs = true →
      (powerLoop tm last ch tr).action = some a →
      ∀ b ∈ (powerLoop tm last ch tr).obs, b = false := by
  intro tr
  induction tr with
  | nil =>
    intro last ch a hm ha
    simp [powerLoop] at ha
  | cons t rest ih =>
    intro last ch a hm ha b hb
    cases hc : t.cancelHead with
    | true =>
      rw [powerLoop_cancelled tm last ch t rest hc] at ha
      cases ha
    | false =>
      by_cases hmid : t.cancelMid = false ∧ t.source = PowerSource.Battery
      · by_cases ht : tm < t.nowElapsed - powerChanged2 last ch t
        · rw [powerLoop_timeout tm last ch t rest hc hmid.1 hmid.2 ht] at hb
          rcases List.mem_cons.mp hb with hb | hb
          · exact hb
          · simpa using hb
        · cases hcapE : t.capacity with
          | some c =>
            by_cases hlow : c < lowCapacityThreshold
            · rw [powerLoop_caplow tm last ch t rest c hc hmid.1 hmid.2 ht
                hcapE hlow] at hb
              rcases List.mem_cons.mp hb with hb | hb
              · exact hb
              · simpa using hb
            · have heq := powerLoop_capok tm last ch t rest hc hmid.1 hmid.2 ht
                (Or.inr ⟨c, hcapE, hlow⟩)
              rw [heq] at hm ha hb
              have hm2 : monoObs
                  (powerLoop tm t.source (powerChanged2 last ch t) rest).obs
                    = true :=
                monoObs_tail (monoObs_tail hm)
              have hrec := ih t.source (powerChanged2 last ch t) a hm2 ha
              rcases List.mem_cons.mp hb with hb | hb
              · exact hb
              rcases List.mem_cons.mp hb with hb | hb
              · exact hb
              · exact hrec b hb
          | none =>
            have heq := powerLoop_capok tm last ch t rest hc hmid.1 hmid.2 ht
              (Or.inl hcapE)
            rw [heq] at hm ha hb
            have hm2 : monoObs
                (powerLoop tm t.source (powerChanged2 last ch t) rest).obs
                  = true :=
              monoObs_tail (monoObs_tail hm)
            have hrec := ih t.source (powerChanged2 last ch t) a hm2 ha
            rcases List.mem_cons.mp hb with hb | hb
            · exact hb
            rcases List.mem_cons.mp hb with hb | hb
            · exact hb
            · exact hrec b hb
      · have heq := powerLoop_skip tm last ch t rest hc hmid
        rw [heq] at hm ha hb
        cases hcm : t.cancelMid with
        | true =>
          rw [hcm] at hm
          have hall := monoObs_from_true (monoObs_tail hm)
          have hnone := powerLoop_allTrue_none tm t.source
            (powerChanged2 last ch t) rest hall
          rw [hnone] at ha
          cases ha
        | false =>
          rw [hcm] at hb hm
          have hm2 : monoObs
              (powerLoop tm t.source (powerChanged2 last ch t) rest).obs
                = true :=
            monoObs_tail (monoObs_tail hm)
          have hrec := ih t.source (powerChanged2 last ch t) a hm2 ha
          rcases List.mem_cons.mp hb with hb | hb
          · exact hb
          rcases List.mem_cons.mp hb with hb | hb
          · exact hb
          · exact hrec b hb

theorem buttonLoop_cancelled (t : ButtonTick) (rest : List ButtonTick)
    (hc : t.cancelHead = true) :
    get_button_action (t :: rest) = ⟨[], [true], none⟩ := by
  simp [get_button_action, hc]

theorem buttonLoop_released (t : ButtonTick) (rest : List ButtonTick)
    (hc : t.cancelHead = false) (hs : t.state = ButtonState.Released) :
    get_button_action (t :: rest) =
      ⟨(get_button_action rest).beeps, false :: (get_button_action rest).obs,
        (get_button_action rest).action⟩ := by
  simp only [get_button_action, hc, Bool.false_eq_true, if_false, hs]

theorem buttonLoop_stuck (t : ButtonTick) (rest : List ButtonTick)
    (hc : t.cancelHead = false) (hs : t.state = ButtonState.Pressed)
    (hin : (buttonInner t.innerChecks).2 = none) :
    get_button_action (t :: rest) =
      ⟨[⟨200, 200, 1⟩], false :: (buttonInner t.innerChecks).1, none⟩ := by
  simp only [get_button_action, hc, Bool.false_eq_true, if_false, hs, hin]

theorem buttonLoop_inner_cancelled (t : ButtonTick) (rest : List ButtonTick)
    (hc : t.cancelHead = false) (hs : t.state = ButtonState.Pressed)
    (hin : (buttonInner t.innerChecks).2 = some ())
    (hca : t.cancelAfterInner = true) :
    get_button_action (t :: rest) =
      ⟨⟨200, 200, 1⟩ :: (get_button_action rest).beeps,
        (false :: (buttonInner t.innerChecks).1) ++
          true :: (get_button_action rest).obs,
        (get_button_action rest).action⟩ := by
  simp only [get_button_action, hc, Bool.false_eq_true, if_false, hs, hin, hca,
    if_true]

theorem buttonLoop_resolve (t : ButtonTick) (rest : List ButtonTick)
    (hc : t.cancelHead = false) (hs : t.state = ButtonState.Pressed)
    (hin : (buttonInner t.innerChecks).2 = some ())
    (hca : t.cancelAfterInner = false) :
    get_button_action (t :: rest) =
      ⟨[⟨200, 200, 1⟩], (false :: (buttonInner t.innerChecks).1) ++ [false],
        some (if 2000 ≤ t.releaseTime - t.pressStart then
            ButtonAction.Reboot (t.releaseTime - t.pressStart)
          else
            ButtonAction.Shutdown (t.releaseTime - t.pressStart))⟩ := by
  simp only [get_button_action, hc, Bool.false_eq_true, if_false, hs, hin, hca]
  by_cases h2000 : 2000 ≤ t.releaseTime - t.pressStart
  · simp [h2000]
  · simp [h2000]

theorem buttonLoop_allTrue_none (tr : List ButtonTick)
    (h : ∀ b ∈ (get_button_action tr).obs, b = true) :
    (get_button_action tr).action = none := by
  cases tr with
  | nil => rfl
  | cons t rest =>
    cases hc : t.cancelHead with
    | true => rw [buttonLoop_cancelled t rest hc]
    | false =>
      exfalso
      have hf : (false : Bool) ∈ (get_button_action (t :: rest)).obs := by
        cases hs : t.state with
        | Released => rw [buttonLoop_released t rest hc hs]; simp
        | Pressed =>
          cases hin2 : (buttonInner t.innerChecks).2 with
          | none => rw [buttonLoop_stuck t rest hc hs hin2]; simp
          | some u =>
            cases u
            cases hca : t.cancelAfterInner with
            | true => rw [buttonLoop_inner_cancelled t rest hc hs hin2 hca]; simp
            | false => rw [buttonLoop_resolve t rest hc hs hin2 hca]; simp
      exact Bool.noConfusion (h false hf)

theorem buttonLoop_mono_some_obs_false :
    ∀ (tr : List ButtonTick) (a : ButtonAction),
      monoObs (get_button_action tr).obs = true →
      (get_button_action tr).action = some a →
      ∀ b ∈ (get_button_action tr).obs, b = false := by
  intro tr
  induction tr with
  | nil =>
    intro a hm ha
    simp [get_button_action] at ha
  | cons t rest ih =>
    intro a hm ha b hb
    cases hc : t.cancelHead with
    | true =>
      rw [buttonLoop_cancelled t rest hc] at ha
      cases ha
    | false =>
      cases hs : t.state with
      | Released =>
        rw [buttonLoop_released t rest hc hs] at hm ha hb
        have hrec := ih a (monoObs_tail hm) ha
        rcases List.mem_cons.mp hb with hb | hb
        · exact hb
        · exact hrec b hb
      | Pressed =>
        cases hin2 : (buttonInner t.innerChecks).2 with
        | none =>
          rw [buttonLoop_stuck t rest hc hs hin2] at ha
          cases ha
        | some u =>
          cases u
          cases hca : t.cancelAfterInner with
          | true =>
            rw [buttonLoop_inner_cancelled t rest hc hs hin2 hca] at hm ha
            have hall := monoObs_from_true
              (monoObs_drop (false :: (buttonInner t.innerChecks).1) hm)
            have hnone := buttonLoop_allTrue_none rest hall
            rw [hnone] at ha
            cases ha
          | false =>
            rw [buttonLoop_resolve t rest hc hs hin2 hca] at hm hb
            rcases List.mem_append.mp hb with hb | hb
            · exact monoObs_before_false hm b hb
            · simpa using hb

theorem beepGo_succ (count : Nat) (cancelAt : Nat → Bool)
    (counter fuel : Nat) :
    beepGo count cancelAt counter (fuel + 1) =
      if cancelAt counter then
        []
      else
        BeepEvent.setHigh :: BeepEvent.sleepHigh :: BeepEvent.setLow ::
          (if counter + 1 < count then
            BeepEvent.sleepLow :: beepGo count cancelAt (counter + 1) fuel
          else
            beepGo count cancelAt (counter + 1) fuel) := rfl

theorem beepGo_no_cancel (count : Nat) (cancelAt : Nat → Bool)
    (hnc : ∀ i, cancelAt i = false) :
    ∀ (fuel counter : Nat), counter + fuel = count →
      beepGo count cancelAt counter fuel = pulseTrain fuel := by
  intro fuel
  induction fuel with
  | zero => intro counter _; rfl
  | succ f ih =>
    intro counter hcnt
    rw [beepGo_succ, hnc counter]
    cases f with
    | zero =>
      have hlt : ¬ counter + 1 < count := by omega
      simp [hlt, pulseTrain, beepGo]
    | succ g =>
      have hlt : counter + 1 < count := by omega
      have hrec := ih (counter + 1) (by omega)
      simp [hlt, hrec, pulseTrain]

theorem beep_no_cancel (count : Nat) (cancelAt : Nat → Bool)
    (hnc : ∀ i, cancelAt i = false) :
    beep count cancelAt = pulseTrain count :=
  beepGo_no_cancel count cancelAt hnc count 0 (by omega)

theorem beepGo_cancel_at (count : Nat) (cancelAt : Nat → Bool) :
    ∀ (i fuel counter : Nat), counter + fuel = count → i < fuel →
      (∀ j < i, cancelAt (counter + j) = false) →
      cancelAt (counter + i) = true →
      beepGo count cancelAt counter fuel = interruptedTrain i := by
  intro i
  induction i with
  | zero =>
    intro fuel counter hcnt hi hbefore hcancel
    cases fuel with
    | zero => omega
    | succ f =>
      have hc0 : cancelAt counter = true := by simpa using hcancel
      simp [beepGo, hc0, interruptedTrain]
  | succ k ih =>
    intro fuel counter hcnt hi hbefore hcancel
    cases fuel with
    | zero => omega
    | succ f =>
      have hc0 : cancelAt counter = false := by
        simpa using hbefore 0 (by omega)
      have hlt : counter + 1 < count := by omega
      have hrec := ih f (counter + 1) (by omega) (by omega)
        (fun j hj => by
          have := hbefore (j + 1) (by omega)
          simpa [Nat.add_assoc, Nat.add_comm 1 j] using this)
        (by
          have : counter + (k + 1) = counter + 1 + k := by omega
          rw [← this]
          exact hcancel)
      simp [beepGo, hc0, hlt, interruptedTrain, hrec]

theorem beep_cancel_at (count : Nat) (cancelAt : Nat → Bool) (i : Nat)
    (hi : i < count) (hbefore : ∀ j < i, cancelAt j = false)
    (hcancel : cancelAt i = true) :
    beep count cancelAt = interruptedTrain i :=
  beepGo_cancel_at count cancelAt i count 0 (by omega) hi
    (fun j hj => by simpa using hbefore j hj) (by simpa using hcancel)

theorem levelAfter_beepGo (count : Nat) (cancelAt : Nat → Bool) :
    ∀ (fuel counter : Nat),
      levelAfter false (beepGo count cancelAt counter fuel) = false := by
  intro fuel
  induction fuel with
  | zero => intro counter; rfl
  | succ f ih =>
    intro counter
    cases hc : cancelAt counter with
    | true => simp [beepGo, hc, levelAfter]
    | false =>
      by_cases hlt : counter + 1 < count
      · simp [beepGo, hc, hlt, levelAfter, ih]
      · simp [beepGo, hc, hlt, levelAfter, ih]

theorem pulseTrain_counts (n : Nat) :
    (pulseTrain n).count BeepEvent.setHigh = n ∧
      (pulseTrain n).count BeepEvent.setLow = n := by
  induction n with
  | zero => simp [pulseTrain]
  | succ m ih =>
    cases m with
    | zero => simp [pulseTrain]
    | succ k =>
      have ih1 := ih.1
      have ih2 := ih.2
      constructor
      · simp [pulseTrain, List.count_cons, ih1]
      · simp [pulseTrain, List.count_cons, ih2]

theorem powerLoop_battery_steady (tm : Nat) (t0 : Nat) :
    ∀ (pre : List PowerTick) (t : PowerTick) (rest : List PowerTick),
      (∀ x ∈ pre, x.cancelHead = false ∧ x.source = PowerSource.Battery ∧
        (x.cancelMid = true ∨
          (x.nowElapsed - t0 ≤ tm ∧
            ∀ c : ℚ, x.capacity = some c → ¬ c < lowCapacityThreshold))) →
      t.cancelHead = false → t.cancelMid = false →
      t.source = PowerSource.Battery → tm < t.nowElapsed - t0 →
      (powerLoop tm PowerSource.Battery t0 (pre ++ t :: rest)).beeps = [] ∧
        (powerLoop tm PowerSource.Battery t0 (pre ++ t :: rest)).action =
          some (PowerLossAction.Timeout (t.nowElapsed - t0)) := by
  intro pre
  induction pre with
  | nil =>
    intro t rest _ hc hmid hsrc ht
    have hch : powerChanged2 PowerSource.Battery t0 t = t0 := by
      simp [powerChanged2, hsrc]
    have heq := powerLoop_timeout tm PowerSource.Battery t0 t rest hc hmid hsrc
      (by rw [hch]; exact ht)
    rw [List.nil_append, heq, hch]
    constructor
    · simp [powerBeeps1, hsrc]
    · rfl
  | cons x pre2 ih =>
    intro t rest hpre hc hmid hsrc ht
    have hx := hpre x (List.mem_cons_self x pre2)
    have hxch : powerChanged2 PowerSource.Battery t0 x = t0 := by
      simp [powerChanged2, hx.2.1]
    have hxbp : powerBeeps1 PowerSource.Battery x = [] := by
      simp [powerBeeps1, hx.2.1]
    have hrest := ih t rest (fun y hy => hpre y (List.mem_cons_of_mem x hy))
      hc hmid hsrc ht
    cases hxm : x.cancelMid with
    | true =>
      have heq := powerLoop_skip tm PowerSource.Battery t0 x
        (pre2 ++ t :: rest) hx.1 (by rw [hxm]; simp)
      rw [List.cons_append, heq, hxch, hx.2.1, hxbp]
      exact ⟨by simpa using hrest.1, hrest.2⟩
    | false =>
      rcases hx.2.2 with hxm2 | ⟨helap, hcapok⟩
      · rw [hxm] at hxm2; cases hxm2
      · have hcap : x.capacity = none ∨
            ∃ c, x.capacity = some c ∧ ¬ c < lowCapacityThreshold := by
          cases hxc : x.capacity with
          | none => exact Or.inl rfl
          | some c => exact Or.inr ⟨c, rfl, hcapok c hxc⟩
        have heq := powerLoop_capok tm PowerSource.Battery t0 x
          (pre2 ++ t :: rest) hx.1 hxm hx.2.1
          (by rw [hxch]; omega) hcap
        rw [List.cons_append, heq, hxch, hx.2.1, hxbp]
        exact ⟨by simpa using hrest.1, hrest.2⟩

/-! ## Claim theorems -/

/-- Claim C1 (refuted by the code, kept as evidence): in the control flow of
`main`, the completed run of the power-source monitor is always the first
milestone, and the run of the button monitor only appears strictly after
it, for every combination of monitor outcomes and configured commands:
the two monitors execute sequentially, not concurrently. -/
theorem main_runs_monitors_sequentially :
    ∀ (powerResult : Option PowerLossAction)
      (buttonResult : Option ButtonAction) (shutdownCmd rebootCmd : List Char),
      (main_events powerResult buttonResult shutdownCmd rebootCmd).head? =
          some (MainEvent.powerMonitorRun powerResult) ∧
        MainEvent.buttonMonitorRun buttonResult ∈
          (main_events powerResult buttonResult shutdownCmd rebootCmd).tail := by
  intro pr br s r
  cases pr with
  | none =>
    cases br with
    | none => exact ⟨rfl, by simp [main_events]⟩
    | some b => cases b <;> exact ⟨rfl, by simp [main_events]⟩
  | some a =>
    cases br with
    | none => exact ⟨rfl, by simp [main_events]⟩
    | some b => cases b <;> exact ⟨rfl, by simp [main_events]⟩

/-- Claim C2: cancelling twice equals cancelling once and is observable;
whenever a monitor run returns an action even though its observations are
monotone (as they are for a real token), every cancellation value it
observed was `false` — no monitor resolves after observing cancellation;
and, because a resolved power action cancels the token before the button
monitor starts, at most one action is produced per process lifetime. -/
theorem cancellation_safety (t : CancellationToken) (tm : Nat)
    (init : PowerInit) (ptrace : List PowerTick) (btrace : List ButtonTick)
    (pa : PowerLossAction) (ba : ButtonAction) :
    (CancellationToken.cancel (CancellationToken.cancel t) =
        CancellationToken.cancel t ∧
      (CancellationToken.cancel t).is_cancelled = true) ∧
    (monoObs (get_power_loss_action tm init ptrace).obs = true →
      (get_power_loss_action tm init ptrace).action = some pa →
      ∀ ob ∈ (get_power_loss_action tm init ptrace).obs, ob = false) ∧
    (monoObs (get_button_action btrace).obs = true →
      (get_button_action btrace).action = some ba →
      ∀ ob ∈ (get_button_action btrace).obs, ob = false) ∧
    (((get_power_loss_action tm init ptrace).action.isSome = true →
        ∀ bt rest2, btrace = bt :: rest2 → bt.cancelHead = true) →
      (process_actions tm init ptrace btrace).length ≤ 1) := by
  refine ⟨⟨rfl, rfl⟩, ?_, ?_, ?_⟩
  · intro hm ha
    exact powerLoop_mono_some_obs_false tm ptrace init.initSource init.initTime
      pa hm ha
  · intro hm ha
    exact buttonLoop_mono_some_obs_false btrace ba hm ha
  · intro hlink
    unfold process_actions
    cases hpa : (get_power_loss_action tm init ptrace).action with
    | none =>
      cases hba : (get_button_action btrace).action with
      | none => simp
      | some b2 => simp
    | some a2 =>
      have hbnone : (get_button_action btrace).action = none := by
        cases btrace with
        | nil => rfl
        | cons bt rest2 =>
          have hhead : bt.cancelHead = true :=
            hlink (by rw [hpa]; rfl) bt rest2 rfl
          rw [buttonLoop_cancelled bt rest2 hhead]
      rw [hbnone]
      simp

/-- Claim C2 witness: concrete runs exercising every hypothesis of
`cancellation_safety`. -/
theorem cancellation_safety_witness :
    (CancellationToken.cancel (CancellationToken.cancel ⟨false⟩) =
        CancellationToken.cancel ⟨false⟩) ∧
    (∀ ob ∈ (get_power_loss_action 0 ⟨PowerSource.Battery, 0⟩
        [⟨false, PowerSource.Battery, 0, false, 5, none⟩]).obs, ob = false) ∧
    (∀ ob ∈ (get_button_action
        [⟨false, ButtonState.Pressed, 0, [(false, ButtonState.Released)],
          false, 800⟩]).obs, ob = false) ∧
    (process_actions 0 ⟨PowerSource.Battery, 0⟩
        [⟨false, PowerSource.Battery, 0, false, 5, none⟩]
        [⟨true, ButtonState.Released, 0, [], false, 0⟩]).length ≤ 1 :=
  ⟨(cancellation_safety ⟨false⟩ 0 ⟨PowerSource.Battery, 0⟩ [] []
      (PowerLossAction.Timeout 5) (ButtonAction.Shutdown 800)).1.1,
   (cancellation_safety ⟨false⟩ 0 ⟨PowerSource.Battery, 0⟩
      [⟨false, PowerSource.Battery, 0, false, 5, none⟩] []
      (PowerLossAction.Timeout 5) (ButtonAction.Shutdown 800)).2.1
      (by decide) (by decide),
   (cancellation_safety ⟨false⟩ 0 ⟨PowerSource.Battery, 0⟩ []
      [⟨false, ButtonState.Pressed, 0, [(false, ButtonState.Released)],
        false, 800⟩]
      (PowerLossAction.Timeout 5) (ButtonAction.Shutdown 800)).2.2.1
      (by decide) (by decide),
   (cancellation_safety ⟨false⟩ 0 ⟨PowerSource.Battery, 0⟩
      [⟨false, PowerSource.Battery, 0, false, 5, none⟩]
      [⟨true, ButtonState.Released, 0, [], false, 0⟩]
      (PowerLossAction.Timeout 5) (ButtonAction.Shutdown 800)).2.2.2
      (fun _ bt rest2 heq => by
        injection heq with h1 _
        rw [← h1])⟩

/-- Claim C3: a press that the button monitor sees end in a release (no
cancellation observed anywhere in the press handling) resolves by hold
duration: `Reboot` at 2000 ms or more, `Shutdown` below 2000 ms, with the
boundary exact at 1999 ms versus 2000 ms. -/
theorem button_press_classification (t : ButtonTick) (rest : List ButtonTick)
    (hc : t.cancelHead = false) (hs : t.state = ButtonState.Pressed)
    (hnc : ∀ p ∈ t.innerChecks, p.1 = false)
    (hexit : (buttonInner t.innerChecks).2 = some ())
    (hca : t.cancelAfterInner = false) :
    (2000 ≤ t.releaseTime - t.pressStart →
      (get_button_action (t :: rest)).action =
        some (ButtonAction.Reboot (t.releaseTime - t.pressStart))) ∧
    (t.releaseTime - t.pressStart < 2000 →
      (get_button_action (t :: rest)).action =
        some (ButtonAction.Shutdown (t.releaseTime - t.pressStart))) ∧
    (t.releaseTime - t.pressStart = 1999 →
      (get_button_action (t :: rest)).action =
        some (ButtonAction.Shutdown 1999)) ∧
    (t.releaseTime - t.pressStart = 2000 →
      (get_button_action (t :: rest)).action =
        some (ButtonAction.Reboot 2000)) := by
  have _hnc := hnc
  rw [buttonLoop_resolve t rest hc hs hexit hca]
  refine ⟨?_, ?_, ?_, ?_⟩
  · intro h; simp [h]
  · intro h; simp [Nat.not_le.mpr h]
  · intro h; rw [h]; simp
  · intro h; rw [h]; simp

/-- Claim C3 witness: a 2000 ms press reboots and a 1999 ms press shuts
down. -/
theorem button_press_classification_witness :
    (get_button_action [⟨false, ButtonState.Pressed, 0,
        [(false, ButtonState.Released)], false, 2000⟩]).action =
      some (ButtonAction.Reboot 2000) ∧
    (get_button_action [⟨false, ButtonState.Pressed, 0,
        [(false, ButtonState.Released)], false, 1999⟩]).action =
      some (ButtonAction.Shutdown 1999) :=
  ⟨(button_press_classification
      ⟨false, ButtonState.Pressed, 0, [(false, ButtonState.Released)], false,
        2000⟩ [] rfl rfl (by decide) (by decide) rfl).1 (by decide),
   (button_press_classification
      ⟨false, ButtonState.Pressed, 0, [(false, ButtonState.Released)], false,
        1999⟩ [] rfl rfl (by decide) (by decide) rfl).2.1 (by decide)⟩

/-- Claim C4: on a non-cancelled battery tick whose elapsed time strictly
exceeds the timeout, the power monitor resolves `Timeout(elapsed)`, and it
does so for every possible capacity-read result of that tick — the
timeout test preempts the capacity read. -/
theorem power_timeout_preempts_capacity (tm : Nat) (last : PowerSource)
    (ch : Nat) (t : PowerTick) (rest : List PowerTick)
    (hc : t.cancelHead = false) (hmid : t.cancelMid = false)
    (hsrc : t.source = PowerSource.Battery)
    (ht : tm < t.nowElapsed - powerChanged2 last ch t) :
    (powerLoop tm last ch (t :: rest)).action =
      some (PowerLossAction.Timeout (t.nowElapsed - powerChanged2 last ch t)) ∧
    ∀ capacityRead : Option ℚ,
      (powerLoop tm last ch
          ({t with capacity := capacityRead} :: rest)).action =
        some (PowerLossAction.Timeout
          (t.nowElapsed - powerChanged2 last ch t)) := by
  constructor
  · rw [powerLoop_timeout tm last ch t rest hc hmid hsrc ht]
  · intro capacityRead
    rw [powerLoop_timeout tm last ch {t with capacity := capacityRead} rest
      hc hmid hsrc ht]
    rfl

/-- Claim C4 witness: with 11 ms elapsed against a 10 ms timeout and a
critically low capacity reading available, the tick still resolves
`Timeout`. -/
theorem power_timeout_preempts_capacity_witness :
    (powerLoop 10 PowerSource.Battery 0
        [⟨false, PowerSource.Battery, 0, false, 11, some (1 / 10)⟩]).action =
      some (PowerLossAction.Timeout 11) :=
  (power_timeout_preempts_capacity 10 PowerSource.Battery 0
    ⟨false, PowerSource.Battery, 0, false, 11, some (1 / 10)⟩ []
    rfl rfl rfl (by decide)).1

/-- Claim C5: on a non-cancelled battery tick within the timeout whose
capacity read succeeds with value `c`, the power monitor resolves
`CapacityLow(c)` exactly when `c < 20 %`; at or above the threshold the
tick does not resolve and the loop continues with the next tick. -/
theorem power_capacity_low_classification (tm : Nat) (last : PowerSource)
    (ch : Nat) (t : PowerTick) (rest : List PowerTick) (c : ℚ)
    (hc : t.cancelHead = false) (hmid : t.cancelMid = false)
    (hsrc : t.source = PowerSource.Battery)
    (ht : ¬ tm < t.nowElapsed - powerChanged2 last ch t)
    (hcap : t.capacity = some c) :
    (c < lowCapacityThreshold →
      (powerLoop tm last ch (t :: rest)).action =
        some (PowerLossAction.CapacityLow c)) ∧
    (¬ c < lowCapacityThreshold →
      (powerLoop tm last ch (t :: rest)).action =
        (powerLoop tm t.source (powerChanged2 last ch t) rest).action) := by
  constructor
  · intro hlow
    rw [powerLoop_caplow tm last ch t rest c hc hmid hsrc ht hcap hlow]
  · intro hlow
    rw [powerLoop_capok tm last ch t rest hc hmid hsrc ht
      (Or.inr ⟨c, hcap, hlow⟩)]

/-- Claim C5 witness: a 15 % reading on battery resolves `CapacityLow`;
a 50 % reading leaves the tick unresolved and the run continues (here:
to the end of the trace, with no action). -/
theorem power_capacity_low_classification_witness :
    (powerLoop 3600000 PowerSource.Battery 0
        [⟨false, PowerSource.Battery, 0, false, 30000,
          some (15 / 100)⟩]).action =
      some (PowerLossAction.CapacityLow (15 / 100)) ∧
    (powerLoop 3600000 PowerSource.Battery 0
        [⟨false, PowerSource.Battery, 0, false, 30000,
          some (50 / 100)⟩]).action = none :=
  ⟨(power_capacity_low_classification 3600000 PowerSource.Battery 0
      ⟨false, PowerSource.Battery, 0, false, 30000, some (15 / 100)⟩ []
      (15 / 100) rfl rfl rfl (by decide) rfl).1
      (by norm_num [lowCapacityThreshold]),
   (power_capacity_low_classification 3600000 PowerSource.Battery 0
      ⟨false, PowerSource.Battery, 0, false, 30000, some (50 / 100)⟩ []
      (50 / 100) rfl rfl rfl (by decide) rfl).2
      (by norm_num [lowCapacityThreshold])⟩

/-- Claim C6: `run_shell_command` fails with `NoCommand` — independently of
any process outcome, hence before a process is spawned — exactly when the
command string is empty or all whitespace; and once a process has been
spawned and has run to completion with an exit code, the call succeeds if
and only if that code is 0. -/
theorem run_shell_command_spec (command : List Char) (outcome : SpawnOutcome) :
    (run_shell_command command outcome =
        Except.error CommandError.NoCommand ↔ command.all isWS = true) ∧
    (command.all isWS = false →
      ∀ code : Int,
        (run_shell_command command (SpawnOutcome.exited (some code)) =
            Except.ok () ↔ code = 0)) := by
  cases hsplit : split_whitespace command with
  | nil =>
    have hall : command.all isWS = true :=
      (split_whitespace_eq_nil_iff command).mp hsplit
    constructor
    · simp [run_shell_command, hsplit, hall]
    · intro hfalse
      rw [hall] at hfalse
      cases hfalse
  | cons p args =>
    have hall : command.all isWS = false := by
      cases h2 : command.all isWS with
      | false => rfl
      | true =>
        exfalso
        rw [← split_whitespace_eq_nil_iff] at h2
        rw [h2] at hsplit
        cases hsplit
    constructor
    · rw [hall]
      simp only [Bool.false_eq_true, iff_false]
      cases outcome with
      | spawnFailed => simp [run_shell_command, hsplit]
      | exited oc =>
        cases oc with
        | none => simp [run_shell_command, hsplit]
        | some code =>
          by_cases hcode : code = 0
          · simp [run_shell_command, hsplit, hcode]
          · simp [run_shell_command, hsplit, hcode]
    · intro _ code
      by_cases hcode : code = 0
      · simp [run_shell_command, hsplit, hcode]
      · simp [run_shell_command, hsplit, hcode]

/-- Claim C6 witness: an all-whitespace command — here a space, a form
feed (U+000C) and a no-break space (U+00A0) — fails with `NoCommand`
regardless of the supplied process outcome, and a non-empty command with
exit code 0 succeeds. -/
theorem run_shell_command_spec_witness :
    run_shell_command [' ', '\x0C', '\u00A0'] (SpawnOutcome.exited (some 0)) =
        Except.error CommandError.NoCommand ∧
      run_shell_command ['l', 's'] (SpawnOutcome.exited (some 0)) =
        Except.ok () :=
  ⟨(run_shell_command_spec [' ', '\x0C', '\u00A0']
      (SpawnOutcome.exited (some 0))).1.mpr (by decide),
   ((run_shell_command_spec ['l', 's']
      (SpawnOutcome.exited (some 0))).2 (by decide) 0).mpr rfl⟩

/-- Claim C7: with no cancellation, `beep` emits exactly `count` high/low
pulse pairs with an inter-pulse low sleep only between pulses; when
cancellation is first observed at the entry of pulse `i`, it returns
after the `i` completed pulses without toggling further; and on every
return path the device ends at the low level. -/
theorem beep_pulse_behaviour (count : Nat) (cancelAt : Nat → Bool) :
    ((∀ i, cancelAt i = false) →
      beep count cancelAt = pulseTrain count ∧
        (pulseTrain count).count BeepEvent.setHigh = count ∧
        (pulseTrain count).count BeepEvent.setLow = count) ∧
    (∀ i < count, (∀ j < i, cancelAt j = false) → cancelAt i = true →
      beep count cancelAt = interruptedTrain i) ∧
    levelAfter false (beep count cancelAt) = false := by
  refine ⟨?_, ?_, ?_⟩
  · intro hnc
    exact ⟨beep_no_cancel count cancelAt hnc, (pulseTrain_counts count).1,
      (pulseTrain_counts count).2⟩
  · intro i hi hbefore hcancel
    exact beep_cancel_at count cancelAt i hi hbefore hcancel
  · exact levelAfter_beepGo count cancelAt count 0

/-- Claim C7 witness: two uncancelled pulses give the full 2-pulse train;
cancellation observed at pulse 1 of 3 stops after one completed pulse;
the device level ends low. -/
theorem beep_pulse_behaviour_witness :
    beep 2 (fun _ => false) = pulseTrain 2 ∧
      beep 3 (fun i => i != 0) = interruptedTrain 1 ∧
      levelAfter false (beep 3 (fun i => i != 0)) = false :=
  ⟨((beep_pulse_behaviour 2 (fun _ => false)).1 (fun _ => rfl)).1,
   (beep_pulse_behaviour 3 (fun i => i != 0)).2.1 1 (by decide) (by decide)
     (by decide),
   (beep_pulse_behaviour 3 (fun i => i != 0)).2.2⟩

/-- Claim C8: for every 16-bit big-endian register word `raw` (arriving on
the bus byte-swapped), the decoders return `raw * 1.25 / 16` millivolts,
`raw / 25600` as a 0–1 ratio, and `raw` reinterpreted as a signed 16-bit
milliamp value. -/
theorem fuel_gauge_decoding (raw : Nat) (hraw : raw < 65536) :
    get_voltage (u16_from_be raw) = (raw : ℚ) * (5 / 4) / 16 ∧
      get_capacity (u16_from_be raw) = (raw : ℚ) / 25600 ∧
      get_current (u16_from_be raw) = i16_of_u16 raw := by
  refine ⟨?_, ?_, ?_⟩ <;>
    simp [get_voltage, get_capacity, get_current, u16_from_be_involutive hraw]

/-- Claim C8 witness: the decoders at register value 0x1234, and the
signed reinterpretation at 0xFFFF. -/
theorem fuel_gauge_decoding_witness :
    (get_voltage (u16_from_be 4660) = (4660 : ℚ) * (5 / 4) / 16 ∧
      get_capacity (u16_from_be 4660) = (4660 : ℚ) / 25600 ∧
      get_current (u16_from_be 4660) = i16_of_u16 4660) ∧
    get_current (u16_from_be 65535) = -1 :=
  ⟨fuel_gauge_decoding 4660 (by decide),
   (fuel_gauge_decoding 65535 (by decide)).2.2⟩

/-- Claim C9 counterexample: at the raw register value 0xFF00 (bus word
0x00FF), `get_capacity` yields the ratio 2.55, i.e. 255 percent — outside
the range 0 to 100 claimed by the specification. -/
theorem get_capacity_exceeds_100_percent :
    ¬ (get_capacity (u16_from_be 65280) * 100 ≤ 100) := by
  norm_num [get_capacity, u16_from_be]

/-- Claim C9 (amended): for every bus word, the capacity percentage
returned by `get_capacity` lies between 0 and 65535/256 (= 255.99609375),
the image of the largest 16-bit register value; the code never clamps it
to 100. -/
theorem get_capacity_percent_range (busWord : Nat) :
    0 ≤ get_capacity busWord * 100 ∧
      get_capacity busWord * 100 ≤ 65535 / 256 := by
  have hle : (u16_from_be busWord : ℚ) ≤ 65535 := by
    have := u16_from_be_lt busWord
    exact_mod_cast Nat.le_of_lt_succ this
  have hnn : (0 : ℚ) ≤ (u16_from_be busWord : ℚ) := by positivity
  unfold get_capacity
  constructor
  · positivity
  · rw [div_mul_eq_mul_div, div_le_div_iff₀ (by norm_num) (by norm_num)]
    nlinarith [hle]

/-- Claim C10: when the first power-source sample and every later sample
is `Battery`, the monitor — whose `last_source` starts as that first
sample and whose `state_changed` starts at monitor entry — never plays a
feedback beep, and resolves `Timeout(d)` at the first non-cancelled tick
whose elapsed time `d` since monitor entry strictly exceeds the timeout,
provided every earlier successful capacity reading was at or above the
low-capacity threshold. -/
theorem battery_from_start_resolves_timeout (tm : Nat) (init : PowerInit)
    (pre : List PowerTick) (t : PowerTick) (rest : List PowerTick)
    (hinit : init.initSource = PowerSource.Battery)
    (hpre : ∀ x ∈ pre, x.cancelHead = false ∧
      x.source = PowerSource.Battery ∧
      (x.cancelMid = true ∨
        (x.nowElapsed - init.initTime ≤ tm ∧
          ∀ c : ℚ, x.capacity = some c → ¬ c < lowCapacityThreshold)))
    (hc : t.cancelHead = false) (hmid : t.cancelMid = false)
    (hsrc : t.source = PowerSource.Battery)
    (ht : tm < t.nowElapsed - init.initTime) :
    (get_power_loss_action tm init (pre ++ t :: rest)).beeps = [] ∧
      (get_power_loss_action tm init (pre ++ t :: rest)).action =
        some (PowerLossAction.Timeout (t.nowElapsed - init.initTime)) := by
  unfold get_power_loss_action
  rw [hinit]
  exact powerLoop_battery_steady tm init.initTime pre t rest hpre hc hmid
    hsrc ht

/-- Claim C10 witness: two battery-only ticks against a 3 ms timeout — a
healthy 90 % reading at 2 ms, then 5 ms elapsed — give no beeps and
`Timeout(5)`. -/
theorem battery_from_start_resolves_timeout_witness :
    (get_power_loss_action 3 ⟨PowerSource.Battery, 0⟩
        [⟨false, PowerSource.Battery, 0, false, 2, some (9 / 10)⟩,
          ⟨false, PowerSource.Battery, 0, false, 5, none⟩]).beeps = [] ∧
      (get_power_loss_action 3 ⟨PowerSource.Battery, 0⟩
          [⟨false, PowerSource.Battery, 0, false, 2, some (9 / 10)⟩,
            ⟨false, PowerSource.Battery, 0, false, 5, none⟩]).action =
        some (PowerLossAction.Timeout 5) :=
  battery_from_start_resolves_timeout 3 ⟨PowerSource.Battery, 0⟩
    [⟨false, PowerSource.Battery, 0, false, 2, some (9 / 10)⟩]
    ⟨false, PowerSource.Battery, 0, false, 5, none⟩ []
    rfl
    (by
      intro x hx
      rw [List.mem_singleton] at hx
      subst hx
      refine ⟨rfl, rfl, Or.inr ⟨by norm_num, ?_⟩⟩
      intro c hcap
      injection hcap with h
      rw [← h]
      norm_num [lowCapacityThreshold])
    rfl rfl rfl (by decide)
